import Mathlib

/-!
Verification development for `src/LXHardwareSerial.cpp` of the LXESP32DMX
repository.

The C++ source is shallowly embedded:
 * machine integers are `Nat` with explicit `% 2^32` where the C `unsigned
   long` / `uint32_t` arithmetic can overflow;
 * the free-running cycle counter and every hardware-updated status field are
   supplied to the embedded functions as explicit oracle arguments (a start
   sample plus a list of successive readings), since hardware advances them
   asynchronously;
 * the memory-mapped `uart_dev_t` register block is a structure of the fields
   the source actually touches; a field holds the last value assigned to it
   (the bit-widths of the platform `uart_dev_t` bitfields are declared in the
   ESP-IDF headers, outside this repository);
 * every mutating register operation additionally returns the list of
   lock/register/pin events it performs, in order, so that lock discipline and
   "no register access" properties are statements about that trace;
 * a C function taking a possibly-NULL `uart_t*` is embedded over
   `Option Uart`; dereferencing a null pointer (which in the source happens in
   `UART_MUTEX_LOCK()` / `uart->dev->...` when no guard is present) is
   embedded as the `Except` error `UartFault.nullDeref`.
-/

/-- `2^32`: one past the maximum of the 32-bit `unsigned long` / `uint32_t`
arithmetic used throughout the source. -/
def W32 : Nat := 4294967296

/-- The C constant `UINT32_MAX` used by `privateMicros` for its wraparound
accounting. -/
def UINT32_MAX : Nat := 4294967295

/-! ## MonotonicMicroTimer: `privateMicros` (source lines 53-66)

The statics `lccount` and `overflow` become an explicit state record; the
`rsr ccount` raw cycle-counter sample becomes the argument `ccount`.  The
`portENTER/EXIT_CRITICAL_ISR` critical section makes the read-compare-update
sequence atomic, which the embedding reflects by making the whole call a
single pure transition.  `CONFIG_ESP32_DEFAULT_CPU_FREQ_MHZ` is the build
configuration constant `F` (cycles per microsecond). -/

/-- The static state of `privateMicros`: last observed raw cycle count and the
accumulated overflow, both C `unsigned long` (32-bit). -/
structure MicrosState where
  lccount : Nat
  overflow : Nat
  deriving DecidableEq

/-- One call of `privateMicros` at raw cycle-counter sample `ccount` with CPU
frequency `F` MHz: if the raw sample went backwards, one counter wraparound is
accounted by adding `UINT32_MAX / F`; returns the microsecond value and the
updated static state.  All arithmetic is 32-bit (`% W32`). -/
def privateMicros (F : Nat) (ccount : Nat) (s : MicrosState) : Nat × MicrosState :=
  let overflow := if ccount < s.lccount then (s.overflow + UINT32_MAX / F) % W32 else s.overflow
  ((overflow + ccount / F) % W32, { lccount := ccount, overflow := overflow })

/-- Successive calls of `privateMicros` over a list of raw cycle-counter
samples, threading the static state; returns the list of returned microsecond
values. -/
def microsRun (F : Nat) (s : MicrosState) : List Nat → List Nat
  | [] => []
  | c :: cs => (privateMicros F c s).1 :: microsRun F (privateMicros F c s).2 cs

/-! ## BusyWaitDelay: `hardwareSerialDelayMicroseconds` (source lines 68-81)

Each call of `privateMicros()` inside the two spin loops consumes the next
element of a reading oracle; `m` is the value of the initial
`privateMicros()` sample.  The function returns the clock reading observed at
the moment the spin finished (`none` if the oracle is exhausted before the
exit condition is observed, i.e. the loop is still spinning). -/

/-- The overflow branch `while(privateMicros() > e)`: consume readings while
they are above `e`; returns the first reading `≤ e` together with the
unconsumed readings. -/
def spinWhileAbove (e : Nat) : List Nat → Option (Nat × List Nat)
  | [] => none
  | r :: rs => if e < r then spinWhileAbove e rs else some (r, rs)

/-- The main wait `while(privateMicros() < e)`: consume readings while they
are below `e`; returns the first reading `≥ e`. -/
def spinWhileBelow (e : Nat) : List Nat → Option Nat
  | [] => none
  | r :: rs => if r < e then spinWhileBelow e rs else some r

/-- `hardwareSerialDelayMicroseconds(us)`: `m` is the entry sample
`m = privateMicros()`, `readings` the oracle for the samples taken by the spin
loops.  `e = m + us` is 32-bit addition; when it overflows (`m > e`) the
source first spins while the clock is still above `e`, then spins until the
clock reaches `e`.  Returns the final observed clock value. -/
def hardwareSerialDelayMicroseconds (us m : Nat) (readings : List Nat) : Option Nat :=
  if us = 0 then some m
  else
    let e := (m + us) % W32
    if e < m then
      match spinWhileAbove e readings with
      | none => none
      | some (_, rs) => spinWhileBelow e rs
    else
      spinWhileBelow e readings

/-- 32-bit wraparound difference `a - b` of two clock values `a b < W32`:
the number of microseconds from sample `b` forward to sample `a`. -/
def wrapSub (a b : Nat) : Nat := (a + W32 - b) % W32

/-! ## The UART register block and access events

`uart_struct_t` (source lines 22-29) carries the register-block pointer `dev`
and the port number `num` (the HAL lock is represented by the lock events in
the traces; the event queue is opaque to this code).  The `uart_dev_t` fields
are exactly the ones the source reads or writes.  `int_raw`, `int_ena` and the
write-one-to-clear register `int_clr` are kept as whole 32-bit words because
the source addresses them both as words (`.val`) and as single bits; the bit
positions of the named bits come from the platform `uart_dev_t` layout. -/

/-- Bit position of `brk_det` inside `int_ena` / `int_raw` (platform
`uart_dev_t` layout). -/
def UART_BRK_DET_BIT : Nat := 7

/-- Bit position of `tx_brk_idle_done` inside `int_raw` / `int_clr` (platform
`uart_dev_t` layout). -/
def UART_TX_BRK_IDLE_DONE_BIT : Nat := 13

/-- Bit position of `tx_done` inside `int_raw` / `int_clr` (platform
`uart_dev_t` layout). -/
def UART_TX_DONE_BIT : Nat := 14

/-- `conf0` fields touched by the source: break-generation enable and the
stop-bit-count field (`others` stands for the remaining bits of the word,
which the source never touches individually). -/
structure UartConf0 where
  txd_brk : Nat
  stop_bit_num : Nat
  others : Nat
  deriving DecidableEq

/-- `conf1` fields touched by the source: receive-FIFO full threshold. -/
structure UartConf1 where
  rxfifo_full_thrhd : Nat
  others : Nat
  deriving DecidableEq

/-- `idle_conf` fields touched by the source: break length and idle
(mark-after-break) length for transmitted breaks. -/
structure UartIdleConf where
  tx_brk_num : Nat
  tx_idle_num : Nat
  others : Nat
  deriving DecidableEq

/-- `rs485_conf` fields touched by the source: RS-485 enable and the `dl1_en`
stop-delay bit. -/
structure UartRs485Conf where
  en : Nat
  dl1_en : Nat
  others : Nat
  deriving DecidableEq

/-- The `uart_dev_t` register block, restricted to the registers the source
touches.  `int_raw` holds the latched interrupt flags, `int_ena` the
interrupt-enable mask, `auto_baud` the auto-baud-detection state word. -/
structure UartDev where
  int_raw : Nat
  int_ena : Nat
  conf0 : UartConf0
  conf1 : UartConf1
  idle_conf : UartIdleConf
  rs485_conf : UartRs485Conf
  auto_baud : Nat
  deriving DecidableEq

/-- `uart_struct_t`: register block plus port number. -/
structure Uart where
  dev : UartDev
  num : Nat
  deriving DecidableEq

/-- Hardware write-one-to-clear semantics of `int_clr` (spec section 6:
"TX-done latch + clear", "interrupt-clear mask"): writing word `w` to
`int_clr` clears in `int_raw` exactly the bits set in `w` (within 32 bits). -/
def w1c (raw w : Nat) : Nat := raw &&& (UINT32_MAX ^^^ (w &&& UINT32_MAX))

/-- The register fields and registers named by the source, used to label
access events. -/
inductive RegField where
  | status_txfifo_cnt
  | status_rxfifo_cnt
  | int_raw_tx_done
  | int_raw_tx_brk_idle_done
  | int_clr_tx_done
  | int_clr_tx_brk_idle_done
  | int_clr_val
  | int_ena_val
  | int_ena_brk_det
  | conf0_txd_brk
  | conf0_stop_bit_num
  | conf1_rxfifo_full_thrhd
  | idle_conf_tx_brk_num
  | idle_conf_tx_idle_num
  | rs485_conf_en
  | rs485_conf_dl1_en
  | auto_baud_val
  deriving DecidableEq

/-- One observable step of an embedded operation: HAL lock acquire/release
(`UART_MUTEX_LOCK`/`UNLOCK`), a register read or write, watchdog feed, task
yield, and the pin-matrix / GPIO calls made by `sendBreak`. -/
inductive Event where
  | lockAcquire
  | lockRelease
  | read (f : RegField) (v : Nat)
  | write (f : RegField) (v : Nat)
  | wdtFeed
  | taskYield
  | pinDetach (pin : Nat)
  | pinModeOutput (pin : Nat)
  | pinWrite (pin : Nat) (level : Bool)
  | pinAttach (pin : Nat) (signal : Nat)
  deriving DecidableEq

/-- Dereferencing a NULL `uart_t*`: the fault an unguarded source function
runs into when called on a torn-down port (the very first thing
`UART_MUTEX_LOCK()` or `uart->dev->...` does is read through the pointer). -/
inductive UartFault where
  | nullDeref
  deriving DecidableEq

/-! ## GuardedRegisterOps (source lines 133-203)

Each `...Dev` function is the body of the corresponding source function
between `UART_MUTEX_LOCK()` and `UART_MUTEX_UNLOCK()`, acting on the register
block and emitting its event trace.  The wrapper of the same name as the C
function takes the possibly-NULL `uart_t*`. -/

/-- `uartConfigureRS485`: `uart->dev->rs485_conf.en = en` under the lock. -/
def uartConfigureRS485Dev (d : UartDev) (en : Nat) : UartDev × List Event :=
  ({ d with rs485_conf := { d.rs485_conf with en := en } },
   [Event.lockAcquire, Event.write RegField.rs485_conf_en en, Event.lockRelease])

/-- `uartConfigureSendBreak`: break enable, break length and idle length
writes under one lock hold. -/
def uartConfigureSendBreakDev (d : UartDev) (en len idle : Nat) : UartDev × List Event :=
  ({ d with
      conf0 := { d.conf0 with txd_brk := en },
      idle_conf := { d.idle_conf with tx_brk_num := len, tx_idle_num := idle } },
   [Event.lockAcquire, Event.write RegField.conf0_txd_brk en,
    Event.write RegField.idle_conf_tx_brk_num len,
    Event.write RegField.idle_conf_tx_idle_num idle, Event.lockRelease])

/-- `uartSetToTwoStopBits`: writes `stop_bit_num = 1` (the one-stop-bit
encoding) and `rs485_conf.dl1_en = 1` under one lock hold: the known
two-stop-bit silicon workaround. -/
def uartSetToTwoStopBitsDev (d : UartDev) : UartDev × List Event :=
  ({ d with
      conf0 := { d.conf0 with stop_bit_num := 1 },
      rs485_conf := { d.rs485_conf with dl1_en := 1 } },
   [Event.lockAcquire, Event.write RegField.conf0_stop_bit_num 1,
    Event.write RegField.rs485_conf_dl1_en 1, Event.lockRelease])

/-- `uartEnableBreakDetect`: sets the `brk_det` interrupt-enable bit, a
receive-FIFO threshold of one byte and resets the auto-baud word, under one
lock hold. -/
def uartEnableBreakDetectDev (d : UartDev) : UartDev × List Event :=
  ({ d with
      int_ena := d.int_ena ||| 2 ^ UART_BRK_DET_BIT,
      conf1 := { d.conf1 with rxfifo_full_thrhd := 1 },
      auto_baud := 0 },
   [Event.lockAcquire, Event.write RegField.int_ena_brk_det 1,
    Event.write RegField.conf1_rxfifo_full_thrhd 1,
    Event.write RegField.auto_baud_val 0, Event.lockRelease])

/-- `uartDisableBreakDetect`: clears the `brk_det` interrupt-enable bit under
the lock. -/
def uartDisableBreakDetectDev (d : UartDev) : UartDev × List Event :=
  ({ d with int_ena := d.int_ena &&& (UINT32_MAX ^^^ 2 ^ UART_BRK_DET_BIT) },
   [Event.lockAcquire, Event.write RegField.int_ena_brk_det 0, Event.lockRelease])

/-- `uartDisableInterrupts`: `int_ena.val = 0` then `int_clr.val = 0xffffffff`
under one lock hold. -/
def uartDisableInterruptsDev (d : UartDev) : UartDev × List Event :=
  ({ d with int_ena := 0, int_raw := w1c d.int_raw 4294967295 },
   [Event.lockAcquire, Event.write RegField.int_ena_val 0,
    Event.write RegField.int_clr_val 4294967295, Event.lockRelease])

/-- `uartSetInterrupts`: `int_ena.val = value` under the lock. -/
def uartSetInterruptsDev (d : UartDev) (value : Nat) : UartDev × List Event :=
  ({ d with int_ena := value },
   [Event.lockAcquire, Event.write RegField.int_ena_val value, Event.lockRelease])

/-- `uartClearInterrupts`: `int_clr.val = 0xffffffff` under the lock. -/
def uartClearInterruptsDev (d : UartDev) : UartDev × List Event :=
  ({ d with int_raw := w1c d.int_raw 4294967295 },
   [Event.lockAcquire, Event.write RegField.int_clr_val 4294967295, Event.lockRelease])

/-- Lift a lock-guarded register operation to a possibly-NULL `uart_t*`: the
source functions have no NULL guard, so `UART_MUTEX_LOCK()` (or the register
access itself) dereferences the null pointer. -/
def guardedOp (op : UartDev → UartDev × List Event) :
    Option Uart → Except UartFault (Uart × List Event)
  | none => Except.error UartFault.nullDeref
  | some u => Except.ok ({ u with dev := (op u.dev).1 }, (op u.dev).2)

/-- `uartConfigureRS485(uart_t*, uint8_t)`. -/
def uartConfigureRS485 (u : Option Uart) (en : Nat) : Except UartFault (Uart × List Event) :=
  guardedOp (fun d => uartConfigureRS485Dev d en) u

/-- `uartConfigureSendBreak(uart_t*, uint8_t, uint8_t, uint16_t)`. -/
def uartConfigureSendBreak (u : Option Uart) (en len idle : Nat) :
    Except UartFault (Uart × List Event) :=
  guardedOp (fun d => uartConfigureSendBreakDev d en len idle) u

/-- `uartSetToTwoStopBits(uart_t*)`. -/
def uartSetToTwoStopBits (u : Option Uart) : Except UartFault (Uart × List Event) :=
  guardedOp uartSetToTwoStopBitsDev u

/-- `uartEnableBreakDetect(uart_t*)`. -/
def uartEnableBreakDetect (u : Option Uart) : Except UartFault (Uart × List Event) :=
  guardedOp uartEnableBreakDetectDev u

/-- `uartDisableBreakDetect(uart_t*)`. -/
def uartDisableBreakDetect (u : Option Uart) : Except UartFault (Uart × List Event) :=
  guardedOp uartDisableBreakDetectDev u

/-- `uartDisableInterrupts(uart_t*)`. -/
def uartDisableInterrupts (u : Option Uart) : Except UartFault (Uart × List Event) :=
  guardedOp uartDisableInterruptsDev u

/-- `uartSetInterrupts(uart_t*, uint32_t)`. -/
def uartSetInterrupts (u : Option Uart) (value : Nat) : Except UartFault (Uart × List Event) :=
  guardedOp (fun d => uartSetInterruptsDev d value) u

/-- `uartClearInterrupts(uart_t*)`. -/
def uartClearInterrupts (u : Option Uart) : Except UartFault (Uart × List Event) :=
  guardedOp uartClearInterruptsDev u

/-! ## WatchdogSafeSpinWait (source lines 86-131)

The polled field (`status.txfifo_cnt`, `status.rxfifo_cnt`,
`int_raw.tx_done`, `int_raw.tx_brk_idle_done`) is hardware-updated, so each
loop iteration's read consumes the next value of an oracle list.  While the
condition is unsatisfied the source feeds the watchdog and yields.  The
result is the event trace (`none` when the oracle is exhausted with the
condition still unsatisfied, i.e. the wait has not returned yet).  A NULL
`uart_t*` returns immediately before any register access. -/

/-- Poll loop `while (field != 0) { feed; yield; }` over successive observed
values of `field`, recording each read. -/
def spinWhileNonzero (f : RegField) : List Nat → Option (List Event)
  | [] => none
  | v :: vs =>
    if v ≠ 0 then
      match spinWhileNonzero f vs with
      | none => none
      | some tr => some (Event.read f v :: Event.wdtFeed :: Event.taskYield :: tr)
    else some [Event.read f v]

/-- Poll loop `while (bit == 0) { feed; yield; }` over successive observed
values of a latched bit, recording each read. -/
def spinWhileZero (f : RegField) : List Nat → Option (List Event)
  | [] => none
  | v :: vs =>
    if v = 0 then
      match spinWhileZero f vs with
      | none => none
      | some tr => some (Event.read f v :: Event.wdtFeed :: Event.taskYield :: tr)
    else some [Event.read f v]

/-- `uartWaitFIFOEmpty(uart_t*)`: NULL returns at once; otherwise spin until
`status.txfifo_cnt` reads zero. -/
def uartWaitFIFOEmpty (u : Option Uart) (counts : List Nat) : Option (List Event) :=
  match u with
  | none => some []
  | some _ => spinWhileNonzero RegField.status_txfifo_cnt counts

/-- `uartWaitRxFIFOEmpty(uart_t*)`: NULL returns at once; otherwise spin until
`status.rxfifo_cnt` reads zero. -/
def uartWaitRxFIFOEmpty (u : Option Uart) (counts : List Nat) : Option (List Event) :=
  match u with
  | none => some []
  | some _ => spinWhileNonzero RegField.status_rxfifo_cnt counts

/-- `uartWaitTXDone(uart_t*)`: NULL returns at once; otherwise spin until
`int_raw.tx_done` reads nonzero, then acknowledge it via
`int_clr.tx_done = 1`. -/
def uartWaitTXDone (u : Option Uart) (bits : List Nat) : Option (List Event) :=
  match u with
  | none => some []
  | some _ =>
    match spinWhileZero RegField.int_raw_tx_done bits with
    | none => none
    | some tr => some (tr ++ [Event.write RegField.int_clr_tx_done 1])

/-- `uartWaitTXBrkDone(uart_t*)`: NULL returns at once; otherwise spin until
`int_raw.tx_brk_idle_done` reads nonzero, then acknowledge it via
`int_clr.tx_brk_idle_done = 1`. -/
def uartWaitTXBrkDone (u : Option Uart) (bits : List Nat) : Option (List Event) :=
  match u with
  | none => some []
  | some _ =>
    match spinWhileZero RegField.int_raw_tx_brk_idle_done bits with
    | none => none
    | some tr => some (tr ++ [Event.write RegField.int_clr_tx_brk_idle_done 1])

/-! ## Pins and the GPIO signal matrix (platform interface, spec section 6)

`pinMode`, `digitalWrite`, `pinMatrixOutDetach` and `pinMatrixOutAttach` are
Arduino-core platform primitives: a pin either carries a peripheral output
signal (`attachedSignal = some idx`) or is a plain GPIO.  The `UxTXD_OUT_IDX`
signal indices are the GPIO-matrix output-signal numbers of the three UART
transmit outputs in the platform headers. -/

/-- GPIO-matrix output-signal index of UART0 TX (platform constant). -/
def U0TXD_OUT_IDX : Nat := 14

/-- GPIO-matrix output-signal index of UART1 TX (platform constant). -/
def U1TXD_OUT_IDX : Nat := 17

/-- GPIO-matrix output-signal index of UART2 TX (platform constant). -/
def U2TXD_OUT_IDX : Nat := 198

/-- State of one GPIO pin: the peripheral output signal routed to it through
the GPIO matrix (if any), whether it is configured as an output, and its
driven level. -/
structure PinState where
  attachedSignal : Option Nat
  isOutput : Bool
  level : Bool
  deriving DecidableEq

/-- The GPIO pins, by pin number. -/
def PinMap : Type := Nat → PinState

/-- `pinMatrixOutDetach(pin, false, false)`: the pin stops carrying a
peripheral signal and becomes a plain GPIO. -/
def pinMatrixOutDetach (pin : Nat) (pins : PinMap) : PinMap :=
  fun p => if p = pin then { pins p with attachedSignal := none } else pins p

/-- `pinMode(pin, OUTPUT)`. -/
def pinModeOutput (pin : Nat) (pins : PinMap) : PinMap :=
  fun p => if p = pin then { pins p with isOutput := true } else pins p

/-- `digitalWrite(pin, level)` (`false` = LOW, `true` = HIGH). -/
def digitalWrite (pin : Nat) (level : Bool) (pins : PinMap) : PinMap :=
  fun p => if p = pin then { pins p with level := level } else pins p

/-- `pinMatrixOutAttach(pin, signal, false, false)`: routes peripheral output
`signal` to the pin through the GPIO matrix. -/
def pinMatrixOutAttach (pin : Nat) (signal : Nat) (pins : PinMap) : PinMap :=
  fun p => if p = pin then { pins p with attachedSignal := some signal } else pins p

/-! ## SerialPortFacade: class `LXHardwareSerial` (source lines 205-287) -/

/-- The facade object: the port handle `_uart` (NULL after `end()`) and the
bound port index `_uart_nr`, both inherited from `HardwareSerial`. -/
structure LXHardwareSerial where
  _uart : Option Uart
  _uart_nr : Nat
  deriving DecidableEq

/-- `LXHardwareSerial::waitFIFOEmpty`. -/
def LXHardwareSerial.waitFIFOEmpty (f : LXHardwareSerial) (counts : List Nat) :
    Option (List Event) :=
  uartWaitFIFOEmpty f._uart counts

/-- `LXHardwareSerial::waitRxFIFOEmpty`. -/
def LXHardwareSerial.waitRxFIFOEmpty (f : LXHardwareSerial) (counts : List Nat) :
    Option (List Event) :=
  uartWaitRxFIFOEmpty f._uart counts

/-- `LXHardwareSerial::waitTXDone`. -/
def LXHardwareSerial.waitTXDone (f : LXHardwareSerial) (bits : List Nat) :
    Option (List Event) :=
  uartWaitTXDone f._uart bits

/-- `LXHardwareSerial::waitTXBrkDone`. -/
def LXHardwareSerial.waitTXBrkDone (f : LXHardwareSerial) (bits : List Nat) :
    Option (List Event) :=
  uartWaitTXBrkDone f._uart bits

/-- `LXHardwareSerial::configureRS485`. -/
def LXHardwareSerial.configureRS485 (f : LXHardwareSerial) (en : Nat) :
    Except UartFault (Uart × List Event) :=
  uartConfigureRS485 f._uart en

/-- `LXHardwareSerial::configureSendBreak`. -/
def LXHardwareSerial.configureSendBreak (f : LXHardwareSerial) (en len idle : Nat) :
    Except UartFault (Uart × List Event) :=
  uartConfigureSendBreak f._uart en len idle

/-- `LXHardwareSerial::setToTwoStopBits`. -/
def LXHardwareSerial.setToTwoStopBits (f : LXHardwareSerial) :
    Except UartFault (Uart × List Event) :=
  uartSetToTwoStopBits f._uart

/-- `LXHardwareSerial::enableBreakDetect`. -/
def LXHardwareSerial.enableBreakDetect (f : LXHardwareSerial) :
    Except UartFault (Uart × List Event) :=
  uartEnableBreakDetect f._uart

/-- `LXHardwareSerial::disableBreakDetect`. -/
def LXHardwareSerial.disableBreakDetect (f : LXHardwareSerial) :
    Except UartFault (Uart × List Event) :=
  uartDisableBreakDetect f._uart

/-- `LXHardwareSerial::clearInterrupts`. -/
def LXHardwareSerial.clearInterrupts (f : LXHardwareSerial) :
    Except UartFault (Uart × List Event) :=
  uartClearInterrupts f._uart

/-- `LXHardwareSerial::end` (named `endSerial` because `end` is a Lean
keyword): disables interrupts on the port, clears the global debug-port
designation (`dbg`) if it names this port, releases the port via `uartEnd`
(an Arduino-core call whose internals are outside this repository) and nulls
the handle.  Returns the new facade, the new debug designation and the event
trace. -/
def endSerial (f : LXHardwareSerial) (dbg : Nat) :
    Except UartFault (LXHardwareSerial × Nat × List Event) :=
  match f._uart with
  | none => Except.error UartFault.nullDeref
  | some u =>
    let p := uartDisableInterruptsDev u.dev
    let dbg1 := if dbg = f._uart_nr then 0 else dbg
    Except.ok ({ f with _uart := none }, dbg1, p.2)

/-- `LXHardwareSerial::sendBreak(uint32_t length)` (source lines 233-259).
`pins` is the GPIO state, `m` and `readings` the microsecond-clock oracle for
the `hardwareSerialDelayMicroseconds(length)` call.  The transmit pin is 10
for port 1, 17 for port 2, 1 otherwise.  The sequence is: read and save
`int_ena.val`, disable interrupts, detach the pin from the matrix, drive it
as a GPIO output LOW, hold for `length`, drive HIGH, reattach the pin to
signal `U2TXD_OUT_IDX` (hardcoded in the source), restore the saved mask.
Returns `ok none` when the delay's oracle never satisfies the spin-exit
condition (the call has not returned). -/
def LXHardwareSerial.sendBreak (f : LXHardwareSerial) (length : Nat) (pins : PinMap)
    (m : Nat) (readings : List Nat) :
    Except UartFault (Option (LXHardwareSerial × PinMap × List Event)) :=
  match f._uart with
  | none => Except.error UartFault.nullDeref
  | some u =>
    let txPin := if f._uart_nr = 1 then 10 else if f._uart_nr = 2 then 17 else 1
    let save_interrupts := u.dev.int_ena
    let p1 := uartDisableInterruptsDev u.dev
    let pins1 := digitalWrite txPin false (pinModeOutput txPin (pinMatrixOutDetach txPin pins))
    match hardwareSerialDelayMicroseconds length m readings with
    | none => Except.ok none
    | some _ =>
      let pins2 := pinMatrixOutAttach txPin U2TXD_OUT_IDX (digitalWrite txPin true pins1)
      let p2 := uartSetInterruptsDev p1.1 save_interrupts
      Except.ok (some
        ({ f with _uart := some { u with dev := p2.1 } }, pins2,
         Event.read RegField.int_ena_val save_interrupts :: p1.2 ++
           [Event.pinDetach txPin, Event.pinModeOutput txPin,
            Event.pinWrite txPin false, Event.pinWrite txPin true,
            Event.pinAttach txPin U2TXD_OUT_IDX] ++ p2.2))

/-! ## Derived predicates and concrete fixtures used by the statements -/

/-- `true` iff the list is strictly increasing at each adjacent pair. -/
def strictlyIncr : List Nat → Bool
  | [] => true
  | [_] => true
  | a :: b :: t => decide (a < b) && strictlyIncr (b :: t)

/-- `true` iff the list is non-decreasing at each adjacent pair. -/
def nonDecr : List Nat → Bool
  | [] => true
  | [_] => true
  | a :: b :: t => decide (a ≤ b) && nonDecr (b :: t)

/-- `n+1` raw samples alternating `UINT32_MAX, 0, …, UINT32_MAX`: every
adjacent pair either increases (no wraparound) or wraps exactly once. -/
def altRaw : Nat → List Nat
  | 0 => [4294967295]
  | n + 1 => 4294967295 :: 0 :: altRaw n

/-- The latched interrupts that are both enabled and pending: exactly those
can fire. -/
def pendingInterrupts (d : UartDev) : Nat := d.int_ena &&& d.int_raw

/-- The minimum-elapsed-time contract of the busy-wait: whenever the delay has
returned with final clock sample `r`, at least `us` microseconds separate the
entry sample `m` from `r` on the 32-bit wraparound clock.  A still-spinning
delay (`none`) asserts nothing. -/
def DelayElapsed (us m : Nat) : Option Nat → Prop
  | some r => us ≤ wrapSub r m
  | none => True

/-- The interrupt-mask restoration contract of `sendBreak`: whenever the call
has completed, the final `int_ena.val` of the bound port reads back exactly
`M`.  A not-yet-returned or faulted call asserts nothing. -/
def RestoresMask (M : Nat) :
    Except UartFault (Option (LXHardwareSerial × PinMap × List Event)) → Prop
  | Except.ok (some t) => (t.1._uart.map fun x => x.dev.int_ena) = some M
  | _ => True

/-- What a completed `end()` leaves behind: a nulled handle, wait primitives
that return at once with an empty access trace, and guarded register
operations that dereference the stale NULL handle. -/
def EndedState : Except UartFault (LXHardwareSerial × Nat × List Event) → Prop
  | Except.ok t =>
      t.1._uart = none ∧
      (∀ obs, t.1.waitFIFOEmpty obs = some []) ∧
      (∀ obs, t.1.waitRxFIFOEmpty obs = some []) ∧
      (∀ obs, t.1.waitTXDone obs = some []) ∧
      (∀ obs, t.1.waitTXBrkDone obs = some []) ∧
      (∀ en, t.1.configureRS485 en = Except.error UartFault.nullDeref) ∧
      (∀ en len idle, t.1.configureSendBreak en len idle = Except.error UartFault.nullDeref) ∧
      t.1.setToTwoStopBits = Except.error UartFault.nullDeref ∧
      t.1.enableBreakDetect = Except.error UartFault.nullDeref ∧
      t.1.disableBreakDetect = Except.error UartFault.nullDeref ∧
      t.1.clearInterrupts = Except.error UartFault.nullDeref
  | Except.error _ => True

/-- A concrete register-block state used by the concrete-input theorems. -/
def devEx : UartDev :=
  { int_raw := 5, int_ena := 77, conf0 := ⟨0, 1, 3⟩, conf1 := ⟨3, 0⟩,
    idle_conf := ⟨0, 2, 0⟩, rs485_conf := ⟨0, 0, 0⟩, auto_baud := 9 }

/-- Concrete GPIO state: every pin initially carries the UART1 TX signal. -/
def pinsEx : PinMap :=
  fun _ => { attachedSignal := some U1TXD_OUT_IDX, isOutput := false, level := true }

/-- A facade bound to port 1 (transmit pin 10). -/
def fEx1 : LXHardwareSerial := { _uart := some { dev := devEx, num := 1 }, _uart_nr := 1 }

/-- The port-2 `uart_t` instance of the concrete fixtures. -/
def uEx2 : Uart := { dev := devEx, num := 2 }

/-- A facade bound to port 2 (transmit pin 17). -/
def fEx2 : LXHardwareSerial := { _uart := some uEx2, _uart_nr := 2 }

/-- The facade left behind by `end()` on the concrete port-2 facade. -/
def fEnded : LXHardwareSerial :=
  match endSerial fEx2 2 with
  | Except.ok t => t.1
  | Except.error _ => { _uart := none, _uart_nr := 0 }

/-! ## Theorems -/

/-- C7: after `configure_break_generation(en, len, idle)`, readback of the
break-length and idle-length fields yields exactly `len` and `idle`, and no
unrelated register field — in particular the stop-bit-count field and the
RS-485 enable bit — is changed by the call. -/
theorem configureSendBreak_exact_and_isolated (d : UartDev) (en len idle : Nat) :
    (uartConfigureSendBreakDev d en len idle).1.idle_conf.tx_brk_num = len ∧
    (uartConfigureSendBreakDev d en len idle).1.idle_conf.tx_idle_num = idle ∧
    (uartConfigureSendBreakDev d en len idle).1.conf0.stop_bit_num = d.conf0.stop_bit_num ∧
    (uartConfigureSendBreakDev d en len idle).1.rs485_conf = d.rs485_conf ∧
    (uartConfigureSendBreakDev d en len idle).1.conf1 = d.conf1 ∧
    (uartConfigureSendBreakDev d en len idle).1.int_ena = d.int_ena ∧
    (uartConfigureSendBreakDev d en len idle).1.int_raw = d.int_raw ∧
    (uartConfigureSendBreakDev d en len idle).1.auto_baud = d.auto_baud ∧
    (uartConfigureSendBreakDev d en len idle).1.idle_conf.others = d.idle_conf.others ∧
    (uartConfigureSendBreakDev d en len idle).1.conf0.others = d.conf0.others :=
  ⟨rfl, rfl, rfl, rfl, rfl, rfl, rfl, rfl, rfl, rfl⟩

/-- C8: after `disable_all_interrupts`, the interrupt-enable mask is zero and
every latched interrupt flag is cleared, both writes forming one lock-held
unit (the trace is exactly acquire, the two writes, release), so no pending
interrupt can fire after the call returns. -/
theorem disableInterrupts_mask_zero_latches_cleared (d : UartDev) :
    (uartDisableInterruptsDev d).1.int_ena = 0 ∧
    (uartDisableInterruptsDev d).1.int_raw = 0 ∧
    pendingInterrupts (uartDisableInterruptsDev d).1 = 0 ∧
    (uartDisableInterruptsDev d).2 =
      [Event.lockAcquire, Event.write RegField.int_ena_val 0,
       Event.write RegField.int_clr_val 4294967295, Event.lockRelease] := by
  have hm : (UINT32_MAX ^^^ ((4294967295 : Nat) &&& UINT32_MAX)) = 0 := by decide
  have hraw : (uartDisableInterruptsDev d).1.int_raw = 0 := by
    show w1c d.int_raw 4294967295 = 0
    simp [w1c, hm]
  refine ⟨rfl, hraw, ?_, rfl⟩
  show (uartDisableInterruptsDev d).1.int_ena &&& (uartDisableInterruptsDev d).1.int_raw = 0
  rw [hraw]
  simp

/-- C9: after `enable_break_detection`, whatever the prior register state,
the auto-baud word is at its reset value zero, the receive-FIFO full
threshold is one byte, and the break-detect interrupt-enable bit is set. -/
theorem enableBreakDetect_resets_autobaud (d : UartDev) :
    (uartEnableBreakDetectDev d).1.auto_baud = 0 ∧
    (uartEnableBreakDetectDev d).1.conf1.rxfifo_full_thrhd = 1 ∧
    Nat.testBit (uartEnableBreakDetectDev d).1.int_ena UART_BRK_DET_BIT = true := by
  refine ⟨rfl, rfl, ?_⟩
  show Nat.testBit (d.int_ena ||| 2 ^ UART_BRK_DET_BIT) UART_BRK_DET_BIT = true
  simp [UART_BRK_DET_BIT, Nat.testBit_lor]
  exact Or.inr (by decide)

/-- C10: `uartSetToTwoStopBits` does not write the two-stop-bit encoding (3)
into the stop-bit-count field: it writes 1 (the one-stop-bit encoding) there
and sets the RS-485 `dl1_en` delay bit, and changes no other register
field. -/
theorem setToTwoStopBits_workaround (d : UartDev) :
    (uartSetToTwoStopBitsDev d).1 =
      { d with conf0 := { d.conf0 with stop_bit_num := 1 },
               rs485_conf := { d.rs485_conf with dl1_en := 1 } } ∧
    (uartSetToTwoStopBitsDev d).1.conf0.stop_bit_num = 1 ∧
    (uartSetToTwoStopBitsDev d).1.conf0.stop_bit_num ≠ 3 ∧
    (uartSetToTwoStopBitsDev d).1.rs485_conf.dl1_en = 1 :=
  ⟨rfl, rfl, by show (1 : Nat) ≠ 3; decide, rfl⟩

/-- C6: each of the four wait primitives, called with a NULL port handle,
returns immediately with an empty access trace — no register read or write is
performed, whatever the hardware oracle would have produced. -/
theorem waitPrimitives_null_return_no_access :
    ∀ a b c d : List Nat,
      uartWaitFIFOEmpty none a = some [] ∧
      uartWaitRxFIFOEmpty none b = some [] ∧
      uartWaitTXDone none c = some [] ∧
      uartWaitTXBrkDone none d = some [] :=
  fun _ _ _ _ => ⟨rfl, rfl, rfl, rfl⟩

/-- C5 (amended): after `end()` returns, the handle is null and the four wait
primitives are no-ops with no register access; the guarded register
operations, however, have no null guard and dereference the stale NULL handle
instead of no-op or failing fast. -/
theorem endSerial_state_after_end (f : LXHardwareSerial) (dbg : Nat) :
    EndedState (endSerial f dbg) := by
  unfold endSerial
  cases f._uart with
  | none => exact trivial
  | some u =>
    exact ⟨rfl, fun _ => rfl, fun _ => rfl, fun _ => rfl, fun _ => rfl,
      fun _ => rfl, fun _ _ _ => rfl, rfl, rfl, rfl, rfl⟩

/-- C5 (counterexample): on the concrete facade left behind by `end()`, the
handle is null, yet `configureRS485` (and likewise `setToTwoStopBits`)
dereferences the stale null handle — `UART_MUTEX_LOCK()` reads
`uart->lock` through the NULL pointer — rather than being a no-op that never
accesses the lock or register block. -/
theorem configureRS485_after_end_derefs_null :
    fEnded._uart = none ∧
    fEnded.configureRS485 1 = Except.error UartFault.nullDeref ∧
    fEnded.setToTwoStopBits = Except.error UartFault.nullDeref :=
  ⟨rfl, rfl, rfl⟩

/-- C1 (evaluation at the failing input): on a facade bound to port 1, whose
transmit pin 10 initially carries port 1's own TX signal `U1TXD_OUT_IDX`,
`sendBreak(176)` completes with pin 10 reattached to the hardcoded
`U2TXD_OUT_IDX` — UART2's transmit signal, not port 1's — so normal framing
does not resume on the port that emitted the break. -/
theorem sendBreak_port1_reattaches_uart2_signal :
    (pinsEx 10).attachedSignal = some U1TXD_OUT_IDX ∧
    (((fEx1.sendBreak 176 pinsEx 0 [176]).toOption.bind id).map
        (fun t => (t.2.1 10).attachedSignal)) = some (some U2TXD_OUT_IDX) ∧
    U2TXD_OUT_IDX ≠ U1TXD_OUT_IDX :=
  ⟨by decide, by decide, by decide⟩

/-- C2: whenever `sendBreak(length)` completes on a bound port, the port's
interrupt-enable mask reads back exactly as the snapshot taken at entry,
regardless of the duration argument and of the clock oracle. -/
theorem sendBreak_restores_interrupt_mask (f : LXHardwareSerial) (u : Uart)
    (length m : Nat) (pins : PinMap) (readings : List Nat)
    (h : f._uart = some u) :
    RestoresMask u.dev.int_ena (f.sendBreak length pins m readings) := by
  unfold LXHardwareSerial.sendBreak
  rw [h]
  cases hdel : hardwareSerialDelayMicroseconds length m readings with
  | none => simp only [hdel]; exact trivial
  | some r => simp only [hdel]; exact rfl

/-- C2 (witness): the concrete port-2 facade with entry mask 77 completes
`sendBreak(176)` and reads back mask 77. -/
theorem sendBreak_restores_interrupt_mask_witness :
    fEx2._uart = some uEx2 ∧
    RestoresMask uEx2.dev.int_ena (fEx2.sendBreak 176 pinsEx 0 [176]) :=
  ⟨rfl, sendBreak_restores_interrupt_mask fEx2 uEx2 176 0 pinsEx [176] rfl⟩

/-- Spin-exit bounds for `while(privateMicros() < e)`: if the previous sample
`p` was at most `e` and each successive sample advances by less than `S`
microseconds on the wraparound clock, then the sample `r` that ends the spin
satisfies `e ≤ r < e + S`. -/
theorem spinWhileBelow_exit_bounds (e S : Nat) :
    ∀ (l : List Nat) (p r : Nat),
      spinWhileBelow e l = some r →
      p ≤ e →
      p < W32 →
      (∀ x ∈ l, x < W32) →
      List.Chain' (fun a b => wrapSub b a < S) (p :: l) →
      e ≤ r ∧ r < e + S ∧ r < W32 := by
  intro l
  induction l with
  | nil => intro p r h; simp [spinWhileBelow] at h
  | cons x xs ih =>
    intro p r h hp hpw hb hch
    simp only [spinWhileBelow] at h
    have hxw : x < W32 := hb x (List.mem_cons_self x xs)
    have hrel : wrapSub x p < S := (List.chain'_cons.mp hch).1
    by_cases hx : x < e
    · rw [if_pos hx] at h
      exact ih x r h (Nat.le_of_lt hx) hxw
        (fun y hy => hb y (List.mem_cons_of_mem x hy)) hch.tail
    · rw [if_neg hx] at h
      have hxr : x = r := Option.some.inj h
      subst hxr
      have hrel' : (x + 4294967296 - p) % 4294967296 < S := hrel
      have hpw' : p < 4294967296 := hpw
      have hxw' : x < 4294967296 := hxw
      omega

/-- Exit of the overflow spin `while(privateMicros() > e)`: the sample that
ends it is at most `e`, and the step bound carries over to the remaining
samples with that sample in front. -/
theorem spinWhileAbove_exit (e S : Nat) :
    ∀ (l : List Nat) (x : Nat) (rs : List Nat),
      spinWhileAbove e l = some (x, rs) →
      (∀ y ∈ l, y < W32) →
      List.Chain' (fun a b => wrapSub b a < S) l →
      x ≤ e ∧ x < W32 ∧ (∀ y ∈ rs, y < W32) ∧
        List.Chain' (fun a b => wrapSub b a < S) (x :: rs) := by
  intro l
  induction l with
  | nil => intro x rs h; simp [spinWhileAbove] at h
  | cons y ys ih =>
    intro x rs h hb hch
    simp only [spinWhileAbove] at h
    by_cases hy : e < y
    · rw [if_pos hy] at h
      exact ih x rs h (fun z hz => hb z (List.mem_cons_of_mem y hz)) hch.tail
    · rw [if_neg hy] at h
      obtain ⟨hxy, hrs⟩ := Prod.mk.inj (Option.some.inj h)
      subst hxy
      subst hrs
      exact ⟨Nat.le_of_not_lt hy, hb y (List.mem_cons_self y ys),
        fun z hz => hb z (List.mem_cons_of_mem y hz), hch⟩

/-- C3: for every duration `us ≥ 0`, whenever
`hardwareSerialDelayMicroseconds(us)` returns, at least `us` microseconds
separate the entry sample `m` from the final clock sample on the 32-bit
wraparound clock — including when `m + us` wraps the counter's width.  The
clock oracle is assumed to advance by less than `W32 - us` microseconds
between successive samples (the spin re-polls far faster than the 32-bit
microsecond clock wraps), which is what makes the wraparound comparison in
the source well-founded. -/
theorem delay_min_elapsed (us m : Nat) (readings : List Nat)
    (hus : us < W32) (hm : m < W32)
    (hb : ∀ x ∈ readings, x < W32)
    (hch : List.Chain' (fun a b => wrapSub b a < W32 - us) (m :: readings)) :
    DelayElapsed us m (hardwareSerialDelayMicroseconds us m readings) := by
  unfold hardwareSerialDelayMicroseconds
  by_cases h0 : us = 0
  · subst h0
    rw [if_pos rfl]
    show (0 : Nat) ≤ wrapSub m m
    exact Nat.zero_le _
  · rw [if_neg h0]
    by_cases hem : (m + us) % W32 < m
    · rw [if_pos hem]
      cases ha : spinWhileAbove ((m + us) % W32) readings with
      | none => exact trivial
      | some pr =>
        obtain ⟨x, rs⟩ := pr
        change DelayElapsed us m (spinWhileBelow ((m + us) % W32) rs)
        cases hbel : spinWhileBelow ((m + us) % W32) rs with
        | none => exact trivial
        | some r =>
          obtain ⟨hxe, hxW, hrsb, hrsch⟩ :=
            spinWhileAbove_exit ((m + us) % W32) (W32 - us) readings x rs ha hb hch.tail
          obtain ⟨her, hrb, hrw⟩ :=
            spinWhileBelow_exit_bounds ((m + us) % W32) (W32 - us) rs x r hbel hxe hxW hrsb hrsch
          have hus' : us < 4294967296 := hus
          have hm' : m < 4294967296 := hm
          have hem' : (m + us) % 4294967296 < m := hem
          have her' : (m + us) % 4294967296 ≤ r := her
          have hrb' : r < (m + us) % 4294967296 + (4294967296 - us) := hrb
          have hrw' : r < 4294967296 := hrw
          show us ≤ (r + 4294967296 - m) % 4294967296
          omega
    · rw [if_neg hem]
      cases hbel : spinWhileBelow ((m + us) % W32) readings with
      | none => exact trivial
      | some r =>
        have hme : m ≤ (m + us) % W32 := Nat.le_of_not_lt hem
        obtain ⟨her, hrb, hrw⟩ :=
          spinWhileBelow_exit_bounds ((m + us) % W32) (W32 - us) readings m r hbel hme hm hb hch
        have hus' : us < 4294967296 := hus
        have hm' : m < 4294967296 := hm
        have hme' : m ≤ (m + us) % 4294967296 := hme
        have her' : (m + us) % 4294967296 ≤ r := her
        have hrw' : r < 4294967296 := hrw
        show us ≤ (r + 4294967296 - m) % 4294967296
        omega

/-- C3 (witness): a concrete run in which `m + us` wraps the 32-bit width —
entry sample `2^32 - 3`, duration 10, samples `2^32 - 1` (still above the
wrapped target 7), then 2 and 8 — returns at sample 8 with 11 ≥ 10
microseconds elapsed on the wraparound clock. -/
theorem delay_min_elapsed_witness :
    (10 : Nat) < W32 ∧ (4294967293 : Nat) < W32 ∧
    (∀ x ∈ [4294967295, 2, 8], x < W32) ∧
    List.Chain' (fun a b => wrapSub b a < W32 - 10) [4294967293, 4294967295, 2, 8] ∧
    DelayElapsed 10 4294967293
      (hardwareSerialDelayMicroseconds 10 4294967293 [4294967295, 2, 8]) :=
  ⟨by norm_num [W32], by norm_num [W32], by norm_num [W32],
   by norm_num [List.chain'_cons, List.chain'_singleton, wrapSub, W32],
   delay_min_elapsed 10 4294967293 [4294967295, 2, 8] (by norm_num [W32]) (by norm_num [W32])
     (by norm_num [W32]) (by norm_num [List.chain'_cons, List.chain'_singleton, wrapSub, W32])⟩

/-- Floor division distributes over addition up to one unit. -/
theorem add_div_le_succ (a b c : Nat) (hc : 0 < c) : (a + b) / c ≤ a / c + b / c + 1 := by
  rw [Nat.add_div hc]
  split <;> omega

/-- Floor division of a successor exceeds that of the number by at most one. -/
theorem succ_div_le (n c : Nat) (hc : 0 < c) : (n + 1) / c ≤ n / c + 1 := by
  have h1 : n + 1 ≤ n + c := by omega
  calc (n + 1) / c ≤ (n + c) / c := Nat.div_le_div_right h1
    _ = n / c + 1 := Nat.add_div_right n hc

set_option maxRecDepth 4000 in
/-- C4 (counterexample): at CPU frequency 240 MHz, the raw-sample sequence
`[4294967295, 100]` from the initial static state crosses the counter's
maximum value exactly once (the second sample is numerically below the
first), yet `privateMicros` returns `[17895697, 17895697]` — not strictly
increasing, because fewer than one microsecond's worth of cycles elapsed
around the wrap.  Moreover over the longer single-wrap-at-a-time sequence
`altRaw 240` (481 samples alternating `UINT32_MAX` and `0`), the accumulated
32-bit microsecond value itself overflows and the returned values are not
even non-decreasing. -/
theorem privateMicros_monotone_cex :
    (100 : Nat) < 4294967295 ∧
    microsRun 240 ⟨0, 0⟩ [4294967295, 100] = [17895697, 17895697] ∧
    strictlyIncr (microsRun 240 ⟨0, 0⟩ [4294967295, 100]) = false ∧
    nonDecr (microsRun 240 ⟨0, 0⟩ (altRaw 240)) = false := by
  refine ⟨by decide, by decide, by decide, by decide⟩

/-- C4 (amended): across any two successive `privateMicros` calls with raw
samples `c1` then `c2`, as long as the accumulated 32-bit microsecond value
cannot overflow (`overflow + 3·(UINT32_MAX/F) < 2^32`), the returned values
are non-decreasing; and when the raw counter wraps between the two calls
(`c2 < c1`, one crossing of the maximum), the increase of the returned value
matches the true elapsed microseconds `(2^32 - c1 + c2) / F` within the
integer-division slack of two — no discontinuity, but also no strictness
when less than a microsecond's worth of cycles elapses. -/
theorem privateMicros_pair (F : Nat) (s0 : MicrosState) (c1 c2 : Nat)
    (hF : 0 < F) (hc1 : c1 < W32) (hc2 : c2 < W32)
    (hov : s0.overflow + 3 * (UINT32_MAX / F) < W32) :
    (privateMicros F c1 s0).1 ≤ (privateMicros F c2 (privateMicros F c1 s0).2).1 ∧
    (c2 < c1 →
      (W32 - c1 + c2) / F ≤ ((privateMicros F c2 (privateMicros F c1 s0).2).1
          - (privateMicros F c1 s0).1) + 2 ∧
      (privateMicros F c2 (privateMicros F c1 s0).2).1 - (privateMicros F c1 s0).1
          ≤ (W32 - c1 + c2) / F + 1) := by
  have hWA : W32 = UINT32_MAX + 1 := rfl
  have hc1A : c1 ≤ UINT32_MAX := by omega
  have hc2A : c2 ≤ UINT32_MAX := by omega
  obtain ⟨x, hx⟩ : ∃ v, UINT32_MAX / F = v := ⟨_, rfl⟩
  obtain ⟨d1, hd1x⟩ : ∃ v, c1 / F = v := ⟨_, rfl⟩
  obtain ⟨d2, hd2x⟩ : ∃ v, c2 / F = v := ⟨_, rfl⟩
  obtain ⟨j, hjx⟩ : ∃ v, (UINT32_MAX - c1) / F = v := ⟨_, rfl⟩
  obtain ⟨k, hkx⟩ : ∃ v, (UINT32_MAX - c1 + c2) / F = v := ⟨_, rfl⟩
  obtain ⟨dd, hddx⟩ : ∃ v, (W32 - c1 + c2) / F = v := ⟨_, rfl⟩
  rw [hx] at hov
  rw [hddx]
  have hd1 : d1 ≤ x := by rw [← hx, ← hd1x]; exact Nat.div_le_div_right hc1A
  have hd2 : d2 ≤ x := by rw [← hx, ← hd2x]; exact Nat.div_le_div_right hc2A
  have key : ∃ ov1, ov1 + 2 * x < W32 ∧
      privateMicros F c1 s0 = ((ov1 + d1) % W32, ⟨c1, ov1⟩) := by
    unfold privateMicros
    rw [hx, hd1x]
    by_cases hw : c1 < s0.lccount
    · have hlt : s0.overflow + x < W32 := by omega
      refine ⟨s0.overflow + x, by omega, ?_⟩
      rw [if_pos hw, Nat.mod_eq_of_lt hlt]
    · exact ⟨s0.overflow, by omega, by rw [if_neg hw]⟩
  obtain ⟨ov1, hov1, heq⟩ := key
  have hr1 : (ov1 + d1) % W32 = ov1 + d1 := Nat.mod_eq_of_lt (by omega)
  have e1 : (privateMicros F c1 s0).1 = ov1 + d1 := by rw [heq]; exact hr1
  have e2 : (privateMicros F c1 s0).2 = ⟨c1, ov1⟩ := by rw [heq]
  rw [e1, e2]
  by_cases hw2 : c2 < c1
  · have hov2 : (ov1 + x) % W32 = ov1 + x := Nat.mod_eq_of_lt (by omega)
    have hr2 : (ov1 + x + d2) % W32 = ov1 + x + d2 := Nat.mod_eq_of_lt (by omega)
    have e3 : (privateMicros F c2 ⟨c1, ov1⟩).1 = ov1 + x + d2 := by
      unfold privateMicros
      rw [hx, hd2x, if_pos hw2, hov2]
      exact hr2
    rw [e3]
    have hsub1 : UINT32_MAX - c1 + c1 = UINT32_MAX := by omega
    have f1 : j + d1 ≤ x := by
      rw [← hx, ← hd1x, ← hjx]
      have h := Nat.add_div_le_add_div (UINT32_MAX - c1) c1 F
      rwa [hsub1] at h
    have f2 : x ≤ j + d1 + 1 := by
      rw [← hx, ← hd1x, ← hjx]
      have h := add_div_le_succ (UINT32_MAX - c1) c1 F hF
      rwa [hsub1] at h
    have f3 : j + d2 ≤ k := by
      rw [← hjx, ← hd2x, ← hkx]
      exact Nat.add_div_le_add_div (UINT32_MAX - c1) c2 F
    have f4 : k ≤ j + d2 + 1 := by
      rw [← hjx, ← hd2x, ← hkx]
      exact add_div_le_succ (UINT32_MAX - c1) c2 F hF
    have hsub2 : W32 - c1 + c2 = (UINT32_MAX - c1 + c2) + 1 := by omega
    have f5 : dd ≤ k + 1 := by
      rw [← hkx, ← hddx, hsub2]
      exact succ_div_le (UINT32_MAX - c1 + c2) F hF
    have f6 : k ≤ dd := by
      rw [← hkx, ← hddx]
      exact Nat.div_le_div_right (by omega)
    exact ⟨by omega, fun _ => ⟨by omega, by omega⟩⟩
  · have hr2 : (ov1 + d2) % W32 = ov1 + d2 := Nat.mod_eq_of_lt (by omega)
    have e3 : (privateMicros F c2 ⟨c1, ov1⟩).1 = ov1 + d2 := by
      unfold privateMicros
      rw [hx, hd2x, if_neg hw2]
      exact hr2
    rw [e3]
    have hd12 : d1 ≤ d2 := by
      rw [← hd1x, ← hd2x]
      exact Nat.div_le_div_right (by omega)
    exact ⟨Nat.add_le_add_left hd12 ov1, fun h => absurd h hw2⟩

/-- C4 (witness): the amended pair theorem applied at 240 MHz to the
single-crossing samples `4294967295` then `100` from the initial static
state. -/
theorem privateMicros_pair_witness :
    (0 : Nat) < 240 ∧
    (MicrosState.mk 0 0).overflow + 3 * (UINT32_MAX / 240) < W32 ∧
    ((privateMicros 240 4294967295 ⟨0, 0⟩).1 ≤
        (privateMicros 240 100 (privateMicros 240 4294967295 ⟨0, 0⟩).2).1 ∧
      (100 < 4294967295 →
        (W32 - 4294967295 + 100) / 240 ≤
            ((privateMicros 240 100 (privateMicros 240 4294967295 ⟨0, 0⟩).2).1
              - (privateMicros 240 4294967295 ⟨0, 0⟩).1) + 2 ∧
        (privateMicros 240 100 (privateMicros 240 4294967295 ⟨0, 0⟩).2).1
              - (privateMicros 240 4294967295 ⟨0, 0⟩).1 ≤
            (W32 - 4294967295 + 100) / 240 + 1)) :=
  ⟨by decide, by decide,
   privateMicros_pair 240 ⟨0, 0⟩ 4294967295 100 (by decide) (by decide) (by decide) (by decide)⟩
